import Mathlib

/-!
Verification of the collision and movement core of a tile-based 2D
platformer.  The development shallowly embeds the Go source: packed
integer terrain codes and collision masks become natural numbers with
explicit bitwise operations (with `% 2 ^ 32` where the 32-bit conversion
matters), `float64` values become rationals, Go `int` becomes `ℤ`, and
the collision scene becomes a structure holding the int-grid data.
-/

namespace DayThree

/-! ### Terrain cell codes (`IntGridData` in the source) -/

/-- IntGridNothing: the zero terrain code. -/
def intGridNothing : ℕ := 0

/-- IntGridDirt base kind. -/
def intGridDirt : ℕ := 1

/-- IntGridLadder base kind. -/
def intGridLadder : ℕ := 2

/-- IntGridStone base kind. -/
def intGridStone : ℕ := 3

/-- IntGridLadderTop is the ladder base kind with bit 31 set. -/
def intGridLadderTop : ℕ := intGridLadder ||| (1 <<< 31)

/-- IntGridLadderBottom is the ladder base kind with bit 30 set. -/
def intGridLadderBottom : ℕ := intGridLadder ||| (1 <<< 30)

/-- IntGridOneWay is the high flag bit 31. -/
def intGridOneWay : ℕ := 1 <<< 31

/-- isLadder unsets the two high bits and compares with the ladder kind. -/
def isLadder (d : ℕ) : Bool := d &&& 0x3fffffff == intGridLadder

/-- isSolid: a cell is solid exactly when it is (unflagged) stone or dirt. -/
def isSolid (d : ℕ) : Bool := d == intGridStone || d == intGridDirt

/-- isOneWay tests the high one-way flag bit. -/
def isOneWay (d : ℕ) : Bool := d &&& intGridOneWay == intGridOneWay

/-! ### Collision masks (`CollideMask` in the source) -/

/-- CollideNone. -/
def collideNone : ℕ := 0

/-- CollideDirt bit. -/
def collideDirt : ℕ := 1

/-- CollideLadder bit. -/
def collideLadder : ℕ := 2

/-- CollideStone bit. -/
def collideStone : ℕ := 4

/-- CollidedSolid: dirt or stone. -/
def collidedSolid : ℕ := collideDirt ||| collideStone

/-- CollideLadderTop: ladder bit together with bit 31. -/
def collideLadderTop : ℕ := collideLadder ||| (1 <<< 31)

/-- CollideLadderBot: ladder bit together with bit 30. -/
def collideLadderBot : ℕ := collideLadder ||| (1 <<< 30)

/-- CollidedOneWay: the single high bit 31. -/
def collidedOneWay : ℕ := 1 <<< 31

/-- CollideMask derivation from a terrain code: unset the two flag bits to
get the base kind; the zero base kind maps to the empty mask, any other
base kind `k` maps to bit `k - 1`, and the two high flag bits of the input
are OR'd back in.  The Go shift `1 << (newd-1)` lands in a 32-bit mask, so
the result is reduced `% 2 ^ 32`. -/
def collideMask (d : ℕ) : ℕ :=
  let newd := d &&& 0x3fffffff
  if newd = 0 then collideNone
  else ((1 <<< (newd - 1)) % (2 ^ 32)) ||| (d &&& 0xc0000000)

/-- ClipFunc: a caller-supplied predicate on collision masks. -/
abbrev ClipFunc := ℕ → Bool

/-- Colliding: false when the clip predicate passes the mask through,
otherwise true when the mask holds a plain solid bit or its bit 31 is set. -/
def colliding (m : ℕ) (clip : ClipFunc) : Bool :=
  if clip m then false
  else decide (0 < m &&& collidedSolid) || (m &&& collidedOneWay == collidedOneWay)

/-! ### The collision scene (grid storage and lookups) -/

/-- PlatformerScene, restricted to the fields the collision core reads:
the cell size in pixels, the grid width in cells, and the row-major
int-grid data. -/
structure PlatformerScene where
  cellSize : ℤ
  cellsWide : ℤ
  intGridData : List ℕ

/-- gridDataI retrieves grid data by cell coordinates; only the linearized
index is bounds-checked, exactly as in the source. -/
def gridDataI (s : PlatformerScene) (cx cy : ℤ) : ℕ :=
  let idx := cx + cy * s.cellsWide
  if idx < 0 ∨ (s.intGridData.length : ℤ) ≤ idx then 0
  else s.intGridData.getD idx.toNat 0

/-- setGridDataI writes grid data by cell coordinates; a linearized index
out of range is a no-op, exactly as in the source. -/
def setGridDataI (s : PlatformerScene) (cx cy : ℤ) (dat : ℕ) : PlatformerScene :=
  let idx := cx + cy * s.cellsWide
  if idx < 0 ∨ (s.intGridData.length : ℤ) ≤ idx then s
  else { s with intGridData := s.intGridData.set idx.toNat dat }

/-- ratFloor is the floor of a rational, written so that it reduces in the
kernel (`Rat.floor_def` equates it with `Int.floor`). -/
def ratFloor (q : ℚ) : ℤ := q.num / q.den

/-- ratCeil is the ceiling of a rational, via `⌈q⌉ = -⌊-q⌋`. -/
def ratCeil (q : ℚ) : ℤ := -ratFloor (-q)

/-- ratFloor agrees with Mathlib's floor. -/
theorem ratFloor_eq (q : ℚ) : ratFloor q = ⌊q⌋ := Rat.floor_def.symm

/-- ratCeil agrees with Mathlib's ceiling. -/
theorem ratCeil_eq (q : ℚ) : ratCeil q = ⌈q⌉ := by
  rw [ratCeil, ratFloor_eq, ← Int.ceil_neg, neg_neg]

/-- truncQ models Go's float-to-int conversion: truncation toward zero. -/
def truncQ (q : ℚ) : ℤ := if 0 ≤ q then ratFloor q else ratCeil q

/-- roundQ models Go's math.Round: round to nearest, halves away from zero. -/
def roundQ (q : ℚ) : ℤ := if 0 ≤ q then ratFloor (q + 1 / 2) else ratCeil (q - 1 / 2)

/-- screenToCell converts screen coordinates to cell coordinates by
dividing by the cell size and truncating. -/
def screenToCell (s : PlatformerScene) (x y : ℚ) : ℤ × ℤ :=
  (truncQ (x / (s.cellSize : ℚ)), truncQ (y / (s.cellSize : ℚ)))

/-- gridData retrieves grid data using screen coordinates. -/
def gridData (s : PlatformerScene) (x y : ℚ) : ℕ :=
  let c := screenToCell s x y
  gridDataI s c.1 c.2

/-! ### Bitwise helper lemmas -/

/-- Distribution of bitwise and over bitwise or on naturals. -/
theorem land_lor_distrib (a b c : ℕ) : (a ||| b) &&& c = (a &&& c) ||| (b &&& c) :=
  Nat.eq_of_testBit_eq fun i => by
    simp only [Nat.testBit_land, Nat.testBit_lor]
    cases a.testBit i <;> cases b.testBit i <;> cases c.testBit i <;> rfl

/-! ### Claim C2: the Colliding predicate -/

/-- Modelled from the spec: claim C2's description of `Colliding`, in which
a mask counts as solid through its flag bits only when the one-way bit-pair
exactly equals the fully-set one-way-plus-ladder-type encoding
(`CollideLadderTop`), a lone flag bit never being solid. -/
def collidingSpecC2 (m : ℕ) (clip : ClipFunc) : Bool :=
  if clip m then false
  else decide (0 < m &&& collidedSolid) || (m &&& collideLadderTop == collideLadderTop)

/-- Claim C2 is false as stated: the mask holding only bit 31 (the lone
one-way flag bit, without the paired ladder-type bit) is treated as solid
by the code, while the claim's reading says a lone flag bit is not solid. -/
theorem c2_counterexample :
    colliding collidedOneWay (fun _ => false) = true ∧
    collidingSpecC2 collidedOneWay (fun _ => false) = false := by
  constructor <;> decide

/-- Claim C2 amended: `Colliding(m, clip)` is false whenever `clip m` is
true, regardless of `m`; otherwise it is true iff `m` contains a plain
solid bit (dirt or stone) or `m`'s one-way high bit (bit 31) is set — the
paired ladder-type bit is not required. -/
theorem c2_colliding_characterization (m : ℕ) (clip : ClipFunc) :
    (clip m = true → colliding m clip = false) ∧
    (clip m = false →
      (colliding m clip = true ↔
        0 < m &&& collidedSolid ∨ m &&& collidedOneWay = collidedOneWay)) := by
  constructor
  · intro h
    simp [colliding, h]
  · intro h
    simp [colliding, h, Bool.or_eq_true, decide_eq_true_eq, beq_iff_eq]

/-- Witness for the amended C2 at a concrete solid mask and clip. -/
theorem c2_witness : colliding collideStone (fun _ => false) = true :=
  ((c2_colliding_characterization collideStone (fun _ => false)).2 rfl).mpr
    (Or.inl (by decide))

/-! ### Claim C9: stability of CollideMask derivation -/

/-- Claim C9 is false as stated: OR-ing the raw one-way flag into the
`None` terrain code does not OR the one-way bit into the output — the
derivation collapses a zero base kind to the empty mask, dropping flags. -/
theorem c9_counterexample :
    collideMask (intGridNothing ||| intGridOneWay) ≠
      collideMask intGridNothing ||| collidedOneWay := by
  decide

/-- Claim C9 amended: base kinds translate stably (dirt, stone, ladder to
their bits, nothing to zero); OR-ing the raw one-way flag into an input
with a nonzero base kind ORs bit 31 into the output unchanged; an input
with base kind `None` yields the empty mask regardless of the flag; and
`(Stone ||| OneWay).CollideMask = OneWayBit ||| StoneBit`. -/
theorem c9_collideMask_stable :
    collideMask intGridDirt = collideDirt ∧
    collideMask intGridStone = collideStone ∧
    collideMask intGridLadder = collideLadder ∧
    collideMask intGridNothing = collideNone ∧
    (∀ d : ℕ, d &&& 0x3fffffff ≠ 0 →
      collideMask (d ||| intGridOneWay) = collideMask d ||| collidedOneWay) ∧
    (∀ d : ℕ, d &&& 0x3fffffff = 0 → collideMask (d ||| intGridOneWay) = collideNone) ∧
    collideMask (intGridStone ||| intGridOneWay) = collidedOneWay ||| collideStone := by
  refine ⟨by decide, by decide, by decide, by decide, ?_, ?_, by decide⟩
  · intro d hd
    have h1 : intGridOneWay &&& 0x3fffffff = 0 := by decide
    have h2 : intGridOneWay &&& 0xc0000000 = collidedOneWay := by decide
    have hlow : (d ||| intGridOneWay) &&& 0x3fffffff = d &&& 0x3fffffff := by
      rw [land_lor_distrib, h1]
      simp
    have hhigh : (d ||| intGridOneWay) &&& 0xc0000000 =
        (d &&& 0xc0000000) ||| collidedOneWay := by
      rw [land_lor_distrib, h2]
    simp only [collideMask, hlow, hhigh]
    rw [if_neg hd, if_neg hd, Nat.lor_assoc]
  · intro d hd
    have h1 : intGridOneWay &&& 0x3fffffff = 0 := by decide
    have hlow : (d ||| intGridOneWay) &&& 0x3fffffff = 0 := by
      rw [land_lor_distrib, hd, h1]
      rfl
    simp only [collideMask, hlow]
    simp

/-- Witness for the amended C9 at the dirt base kind. -/
theorem c9_witness :
    collideMask (intGridDirt ||| intGridOneWay) = collideMask intGridDirt ||| collidedOneWay :=
  (c9_collideMask_stable.2.2.2.2.1) intGridDirt (by decide)

/-! ### Claim C7: out-of-bounds cell lookups -/

/-- Concrete 2-by-2 scene exhibiting the index-wrapping lookup: cell
coordinates (-1, 1) linearize to index 1, which is in range, so the guard
in `gridDataI` does not fire. -/
def c7Scene : PlatformerScene :=
  { cellSize := 16, cellsWide := 2,
    intGridData := [intGridNothing, intGridDirt, intGridNothing, intGridNothing] }

/-- Claim C7 fails on the code: the lookup at cell (-1, 1) — whose column
is outside [0, 2) — wraps to linear index 1 and returns the dirt code
there instead of the zero terrain code. -/
theorem c7_wraparound_lookup :
    gridDataI c7Scene (-1) 1 = intGridDirt ∧ intGridDirt ≠ intGridNothing := by
  constructor <;> decide

/-! ### BitGrid: the sparse boolean bitmap -/

/-- BitGrid: a 2D grid of booleans backed by a byte slice (each list entry
models one byte, so values stay below 256), positioned in space by an
offset. -/
structure BitGrid where
  width : ℤ
  bytes : List ℕ
  offsetX : ℤ
  offsetY : ℤ

/-- NewBitGrid allocates `width * height` zero bytes at offset (0, 0). -/
def newBitGrid (width height : ℤ) : BitGrid :=
  { width := width, bytes := List.replicate (width * height).toNat 0,
    offsetX := 0, offsetY := 0 }

/-- BitGrid.idx linearizes untranslated coordinates. -/
def BitGrid.idx (g : BitGrid) (x y : ℤ) : ℤ := y * g.width + x

/-- BitGrid.isSet tests bit `idx % 8` of byte `idx / 8`. -/
def BitGrid.isSet (g : BitGrid) (idx : ℕ) : Bool :=
  decide (0 < g.bytes.getD (idx / 8) 0 &&& (1 <<< (idx % 8)))

/-- BitGrid.set ORs the addressed bit in; the guard skips only when the
linearized index is negative or exceeds the byte count, as in the source. -/
def BitGrid.set (g : BitGrid) (x y : ℤ) : BitGrid :=
  let idx := g.idx (x - g.offsetX) (y - g.offsetY)
  if idx < 0 ∨ (g.bytes.length : ℤ) < idx then g
  else
    let b := (g.bytes.getD (idx.toNat / 8) 0) ||| (1 <<< (idx.toNat % 8))
    { g with bytes := g.bytes.set (idx.toNat / 8) b }

/-- BitGrid.unset subtracts the bit's value from the addressed byte (the
source uses `-=`, not a bit-clear); byte arithmetic wraps modulo 256. -/
def BitGrid.unset (g : BitGrid) (x y : ℤ) : BitGrid :=
  let idx := g.idx (x - g.offsetX) (y - g.offsetY)
  if idx < 0 ∨ (g.bytes.length : ℤ) < idx then g
  else
    let b := (g.bytes.getD (idx.toNat / 8) 0 + 256 - (1 <<< (idx.toNat % 8))) % 256
    { g with bytes := g.bytes.set (idx.toNat / 8) b }

/-- BitGrid.get returns false when the linearized index is negative or
exceeds the byte count, and otherwise reads the addressed bit. -/
def BitGrid.get (g : BitGrid) (x y : ℤ) : Bool :=
  let idx := g.idx (x - g.offsetX) (y - g.offsetY)
  if idx < 0 ∨ (g.bytes.length : ℤ) < idx then false
  else g.isSet idx.toNat

/-- BitGrid.add returns a shallow copy sharing the bytes with a shifted
offset. -/
def BitGrid.add (g : BitGrid) (vx vy : ℤ) : BitGrid :=
  { g with offsetX := g.offsetX + vx, offsetY := g.offsetY + vy }

/-! ### Claim C8: out-of-bounds BitGrid.Get -/

/-- Concrete 3-by-3 bit grid with the bit at (1, 1) set; its linear bit
index is 4, which is also where the out-of-bounds coordinate (4, 0)
linearizes to. -/
def c8Grid : BitGrid := (newBitGrid 3 3).set 1 1

/-- Claim C8 fails on the code: `Get(4, 0)` on a 3-by-3 grid — with x = 4
outside [0, 3) — returns true once the aliased in-bounds bit (1, 1) is
set, because only the linearized index is bounds-checked. -/
theorem c8_out_of_bounds_get_true :
    c8Grid.get 4 0 = true ∧ (newBitGrid 3 3).get 4 0 = false := by
  constructor <;> decide

/-! ### Claim C10: Unset on an already-clear bit -/

/-- Concrete grid: Unset at (0, 0) on a freshly built (all-clear) 3-by-3
grid.  The subtraction in Unset wraps byte 0 from 0 to 255. -/
def c10Grid : BitGrid := (newBitGrid 3 3).unset 0 0

/-- Claim C10 fails on the code: unsetting an already-clear bit flips every
other bit of the containing byte — Get(1, 0) changes from false to true —
and afterwards Get(0, 0) reads true, not false. -/
theorem c10_unset_clear_bit_corrupts :
    (newBitGrid 3 3).get 1 0 = false ∧
    c10Grid.get 1 0 = true ∧
    c10Grid.get 0 0 = true := by
  refine ⟨by decide, by decide, by decide⟩

/-! ### Claim C6: the ladder derivation pass -/

/-- Iteration order of `forAllGridData`: columns outer, rows inner, with
the row count computed as `length / width`. -/
def forAllGridDataPairs (s : PlatformerScene) : List (ℕ × ℕ) :=
  (List.range s.cellsWide.toNat).flatMap fun x =>
    (List.range (s.intGridData.length / s.cellsWide.toNat)).map fun y => (x, y)

/-- Body of the `processLadders` visitor at one cell: a cell holding the
bare ladder code is marked LadderTop when neither diagonal-up neighbor is
solid and a horizontal neighbor is solid, then marked LadderBottom when
the cell below is solid; neighbor lookups go through `gridDataI`. -/
def processLaddersStep (s : PlatformerScene) (xy : ℕ × ℕ) : PlatformerScene :=
  let cx : ℤ := xy.1
  let cy : ℤ := xy.2
  let dat := s.intGridData.getD (xy.1 + xy.2 * s.cellsWide.toNat) 0
  if dat ≠ intGridLadder then s
  else
    let top := !isSolid (gridDataI s (cx + 1) (cy - 1)) &&
               !isSolid (gridDataI s (cx - 1) (cy - 1)) &&
               (isSolid (gridDataI s (cx - 1) cy) || isSolid (gridDataI s (cx + 1) cy))
    let dat1 := if top then dat ||| intGridLadderTop else dat
    let s1 := if top then setGridDataI s cx cy dat1 else s
    if isSolid (gridDataI s1 cx (cy + 1)) then
      setGridDataI s1 cx cy (dat1 ||| intGridLadderBottom)
    else s1

/-- processLadders runs the visitor over every cell in iteration order,
threading the mutated grid. -/
def processLadders (s : PlatformerScene) : PlatformerScene :=
  (forAllGridDataPairs s).foldl processLaddersStep s

/-- Concrete 3-by-2 scene: a ladder at cell (0, 1) on the left boundary, a
stone at (2, 0), nothing else.  The ladder's out-of-boundary left-neighbor
lookup (-1, 1) wraps to linear index 2, i.e. the stone at (2, 0). -/
def c6Scene : PlatformerScene :=
  { cellSize := 16, cellsWide := 3,
    intGridData := [intGridNothing, intGridNothing, intGridStone,
                    intGridLadder, intGridNothing, intGridNothing] }

/-- Claim C6 fails on the code: after the ladder pass, the boundary ladder
at (0, 1) carries the LadderTop flag even though its only in-grid
horizontal neighbor (1, 1) is not solid and its left neighbor lies outside
the grid boundary (which the claim says is treated as not solid) — the
wrapped lookup reads the stone at (2, 0) instead. -/
theorem c6_boundary_ladder_top_set :
    gridDataI (processLadders c6Scene) 0 1 = intGridLadderTop ∧
    isSolid (gridDataI c6Scene 1 1) = false ∧
    intGridLadderTop ≠ intGridLadder := by
  refine ⟨by decide, by decide, by decide⟩

/-! ### Geometry primitives -/

/-- IVec2: integer 2D coordinates. -/
structure IVec2 where
  x : ℤ
  y : ℤ
deriving DecidableEq

/-- IVec2.scale multiplies both components. -/
def IVec2.scale (v : IVec2) (a : ℤ) : IVec2 := ⟨v.x * a, v.y * a⟩

/-- IRect: an integer rectangle (position and size). -/
structure IRect where
  x : ℤ
  y : ℤ
  w : ℤ
  h : ℤ
deriving DecidableEq

/-- IRect.add translates a rectangle by a vector, keeping its size. -/
def IRect.add (r : IRect) (pos : IVec2) : IRect :=
  { r with x := r.x + pos.x, y := r.y + pos.y }

/-! ### Collision sampling (BoxCollides, AllOverlapping) -/

/-- eps is the corner inset used by the collision samplers. -/
def eps : ℚ := 1 / 1000

/-- halfPts lists the points `a + 1/2, a + 1, ...` strictly below `b`:
the visits of the source's half-unit `for` loops (the loop variable starts
at `a + 1/2` and increases by `1/2` while below `b`). -/
def halfPts (a b : ℚ) : List ℚ :=
  (List.range (ratCeil (2 * (b - a))).toNat).filterMap fun (k : ℕ) =>
    if a + ((k : ℚ) + 1) / 2 < b then some (a + ((k : ℚ) + 1) / 2) else none

/-- hLinePoints: forAllHLine's visits in order — left endpoint, half-unit
interior points, right endpoint.  The visitors at every call site of this
development always return false, so traversals never halt early. -/
def hLinePoints (x1 x2 y : ℚ) : List (ℚ × ℚ) :=
  (x1, y) :: (((halfPts x1 x2).map fun x => (x, y)) ++ [(x2, y)])

/-- vLinePoints: forAllVLine's visits, reproducing the source's swap of
the two endpoints when `y2 > y1` (the swap empties the interior loop,
leaving just the two endpoints). -/
def vLinePoints (x y1 y2 : ℚ) : List (ℚ × ℚ) :=
  let p := if y2 > y1 then (y2, y1) else (y1, y2)
  (x, p.1) :: (((halfPts p.1 p.2).map fun yy => (x, yy)) ++ [(x, p.2)])

/-- interiorPts: the half-unit product grid strictly inside the box,
columns outer and rows inner. -/
def interiorPts (x1 y1 x2 y2 : ℚ) : List (ℚ × ℚ) :=
  (halfPts x1 x2).flatMap fun x => (halfPts y1 y2).map fun y => (x, y)

/-- gridPoints: forAllGrid's visits in order — the four corners, right and
left vertical edges, top and bottom horizontal edges, then the interior. -/
def gridPoints (x1 y1 x2 y2 : ℚ) : List (ℚ × ℚ) :=
  [(x2, y2), (x1, y2), (x2, y1), (x1, y1)] ++
    vLinePoints x2 y1 y2 ++ vLinePoints x1 y1 y2 ++
    hLinePoints x1 x2 y1 ++ hLinePoints x1 x2 y2 ++
    interiorPts x1 y1 x2 y2

/-- collidesSample: the ordinary sampler closure of BoxCollides — a cell
whose mask the clip passes through, or which is flagged one-way,
contributes nothing; otherwise its mask is OR'd into the accumulator. -/
def collidesSample (s : PlatformerScene) (clip : ClipFunc) (acc : ℕ) (p : ℚ × ℚ) : ℕ :=
  let dat := gridData s p.1 p.2
  if clip (collideMask dat) || isOneWay dat then acc
  else acc ||| collideMask dat

/-- collidesBotSample: the bottom sampler closure — only the clip
predicate can suppress a contribution; one-way cells always contribute. -/
def collidesBotSample (s : PlatformerScene) (clip : ClipFunc) (acc : ℕ) (p : ℚ × ℚ) : ℕ :=
  let dat := gridData s p.1 p.2
  if clip (collideMask dat) then acc
  else acc ||| collideMask dat

/-- BoxCollides samples the eps-inset corners, edges and interior of the
hitbox in source order; the bottom corners and the bottom edge use the
bottom sampler, everything else the ordinary one. -/
def boxCollides (s : PlatformerScene) (hitbox : IRect) (clip : ClipFunc) : ℕ :=
  let x1 := (hitbox.x : ℚ) + eps
  let y1 := (hitbox.y : ℚ) + eps
  let x2 := ((hitbox.x + hitbox.w : ℤ) : ℚ) - eps
  let y2 := ((hitbox.y + hitbox.h : ℤ) : ℚ) - eps
  let a1 := collidesBotSample s clip 0 (x2, y2)
  let a2 := collidesBotSample s clip a1 (x1, y2)
  let a3 := collidesSample s clip a2 (x2, y1)
  let a4 := collidesSample s clip a3 (x1, y1)
  let a5 := (vLinePoints x2 y1 y2).foldl (collidesSample s clip) a4
  let a6 := (vLinePoints x1 y1 y2).foldl (collidesSample s clip) a5
  let a7 := (hLinePoints x1 x2 y1).foldl (collidesSample s clip) a6
  let a8 := (hLinePoints x1 x2 y2).foldl (collidesBotSample s clip) a7
  (interiorPts x1 y1 x2 y2).foldl (collidesSample s clip) a8

/-- Collides delegates to BoxCollides. -/
def collides (s : PlatformerScene) (hitbox : IRect) (clip : ClipFunc) : ℕ :=
  boxCollides s hitbox clip

/-- AllOverlapping ORs the mask of every cell sampled across the eps-inset
hitbox, with no clip filtering anywhere. -/
def allOverlapping (s : PlatformerScene) (hitbox : IRect) : ℕ :=
  let x1 := (hitbox.x : ℚ) + eps
  let y1 := (hitbox.y : ℚ) + eps
  let x2 := ((hitbox.x + hitbox.w : ℤ) : ℚ) - eps
  let y2 := ((hitbox.y + hitbox.h : ℤ) : ℚ) - eps
  (gridPoints x1 y1 x2 y2).foldl (fun acc p => acc ||| collideMask (gridData s p.1 p.2)) 0

/-! ### The movement resolver -/

/-- moveLoop is the stepping loop of `move`.  The Go loop keeps a signed
remaining count and subtracts the sign on each accepted step; since the
sign always matches the sign of the rounded amount, the loop runs for at
most `|rounded|` accepted steps, which is the fuel here. -/
def moveLoop (s : PlatformerScene) (clip : ClipFunc) (axis : IVec2) (sign : ℤ) :
    ℕ → IRect → ℤ → ℤ × ℕ
  | 0, _, acc => (acc, 0)
  | n + 1, hitbox, acc =>
    let displacement := axis.scale sign
    let mask := collides s (hitbox.add displacement) clip
    if colliding mask clip then (acc, mask)
    else moveLoop s clip axis sign n (hitbox.add displacement) (acc + sign)

/-- move rounds the requested amount to a step count; zero steps is a
stand-still query answered by AllOverlapping, otherwise the hitbox steps
one grid unit at a time in the sign direction of the request until blocked
or done. -/
def move (s : PlatformerScene) (hitbox : IRect) (amount : ℚ) (axis : IVec2)
    (clip : ClipFunc) : ℤ × ℕ :=
  let mv := roundQ amount
  if mv = 0 then (0, allOverlapping s hitbox)
  else
    let sign : ℤ := if amount < 0 then -1 else 1
    moveLoop s clip axis sign mv.natAbs hitbox 0

/-! ### Claim C1: partial success of a multi-step move -/

/-- Scaling an axis by zero gives the zero vector. -/
theorem IVec2.scale_zero (axis : IVec2) : axis.scale 0 = ⟨0, 0⟩ := by
  simp [IVec2.scale]

/-- Translating by the zero vector is the identity. -/
theorem IRect.add_zero_vec (r : IRect) : r.add ⟨0, 0⟩ = r := by
  cases r
  simp [IRect.add]

/-- Two successive translations along a scaled axis combine additively. -/
theorem IRect.add_add_scale (r : IRect) (axis : IVec2) (a b : ℤ) :
    (r.add (axis.scale a)).add (axis.scale b) = r.add (axis.scale (a + b)) := by
  cases r
  simp [IRect.add, IVec2.scale, mul_add]
  constructor <;> ring

/-- Stepping lemma for `moveLoop`: if every step from `i + 1` up to `N - 1`
is free and step `N` is blocked, the loop started at step `i` ends with
accumulated displacement `sign * (N - 1)` and the blocking mask. -/
theorem moveLoop_blocked (s : PlatformerScene) (clip : ClipFunc) (axis : IVec2)
    (sign : ℤ) (hb0 : IRect) (N : ℕ)
    (hfree : ∀ k : ℕ, 1 ≤ k → k < N →
      colliding (collides s (hb0.add (axis.scale (sign * (k : ℤ)))) clip) clip = false)
    (hblock :
      colliding (collides s (hb0.add (axis.scale (sign * (N : ℤ)))) clip) clip = true) :
    ∀ (d i fuel : ℕ), i + d + 1 = N → N - i ≤ fuel →
      moveLoop s clip axis sign fuel (hb0.add (axis.scale (sign * (i : ℤ)))) (sign * (i : ℤ))
        = (sign * ((N : ℤ) - 1),
           collides s (hb0.add (axis.scale (sign * (N : ℤ)))) clip) := by
  intro d
  induction d with
  | zero =>
    intro i fuel hiN hfuel
    obtain ⟨f, rfl⟩ : ∃ f, fuel = f + 1 := ⟨fuel - 1, by omega⟩
    have hstep : (hb0.add (axis.scale (sign * (i : ℤ)))).add (axis.scale sign)
        = hb0.add (axis.scale (sign * (N : ℤ))) := by
      rw [IRect.add_add_scale]
      have hc : ((i : ℤ) + 1) = (N : ℤ) := by omega
      have : sign * (i : ℤ) + sign = sign * (N : ℤ) := by rw [← hc]; ring
      rw [this]
    simp only [moveLoop, hstep, hblock, if_pos]
    have : sign * (i : ℤ) = sign * ((N : ℤ) - 1) := by
      have : (i : ℤ) = (N : ℤ) - 1 := by
        have := hiN
        omega
      rw [this]
    rw [this]
  | succ d ih =>
    intro i fuel hiN hfuel
    obtain ⟨f, rfl⟩ : ∃ f, fuel = f + 1 := ⟨fuel - 1, by omega⟩
    have hstep : (hb0.add (axis.scale (sign * (i : ℤ)))).add (axis.scale sign)
        = hb0.add (axis.scale (sign * ((i : ℕ) + 1 : ℤ))) := by
      rw [IRect.add_add_scale, mul_add, mul_one]
    have hfreei : colliding
        (collides s (hb0.add (axis.scale (sign * ((i : ℕ) + 1 : ℤ)))) clip) clip = false := by
      have h1 : ((i + 1 : ℕ) : ℤ) = ((i : ℕ) + 1 : ℤ) := by push_cast; ring
      have := hfree (i + 1) (by omega) (by omega)
      rwa [h1] at this
    simp only [moveLoop, hstep, hfreei, Bool.false_eq_true, if_neg, ite_false]
    have hacc : sign * (i : ℤ) + sign = sign * ((i + 1 : ℕ) : ℤ) := by push_cast; ring
    have hpos : hb0.add (axis.scale (sign * ((i : ℕ) + 1 : ℤ)))
        = hb0.add (axis.scale (sign * ((i + 1 : ℕ) : ℤ))) := by push_cast; ring_nf
    rw [hacc, hpos]
    exact ih (i + 1) f (by omega) (by omega)

/-- Claim C1: if the requested delta rounds to at least `N` steps, the
first `N - 1` unit steps are not colliding under the clip predicate, and
the `N`-th unit step collides under it, then `move` returns exactly
`N - 1` signed unit steps of actual displacement together with the
collision mask of the blocking placement. -/
theorem c1_move_partial_success (s : PlatformerScene) (hitbox : IRect) (amount : ℚ)
    (axis : IVec2) (clip : ClipFunc) (N : ℕ) (sign : ℤ)
    (hsign : sign = if amount < 0 then -1 else 1)
    (hN : 1 ≤ N) (hle : N ≤ (roundQ amount).natAbs)
    (hfree : ∀ k : ℕ, 1 ≤ k → k < N →
      colliding (collides s (hitbox.add (axis.scale (sign * (k : ℤ)))) clip) clip = false)
    (hblock :
      colliding (collides s (hitbox.add (axis.scale (sign * (N : ℤ)))) clip) clip = true) :
    move s hitbox amount axis clip
      = (sign * ((N : ℤ) - 1),
         collides s (hitbox.add (axis.scale (sign * (N : ℤ)))) clip) := by
  have hmv : ¬ roundQ amount = 0 := by
    intro h
    rw [h] at hle
    simp at hle
    omega
  have hrun := moveLoop_blocked s clip axis sign hitbox N hfree hblock
    (N - 1) 0 (roundQ amount).natAbs (by omega) (by omega)
  simp only [Nat.cast_zero, mul_zero, IVec2.scale_zero, IRect.add_zero_vec] at hrun
  simp only [move, if_neg hmv, ← hsign]
  exact hrun

/-- Concrete scene for the C1 witness: four 1-pixel cells in a row, the
rightmost one stone. -/
def c1Scene : PlatformerScene :=
  { cellSize := 1, cellsWide := 4,
    intGridData := [intGridNothing, intGridNothing, intGridNothing, intGridStone] }

/-- Concrete hitbox for the C1 witness. -/
def c1Hitbox : IRect := ⟨0, 0, 1, 1⟩

unseal Rat.add Rat.mul Rat.inv Rat.sub in
/-- Witness for C1: requesting +3 cells along X with a stone three cells
away moves 2 and reports the stone mask. -/
theorem c1_witness : move c1Scene c1Hitbox 3 ⟨1, 0⟩ (fun _ => false) = (2, collideStone) :=
  (c1_move_partial_success c1Scene c1Hitbox 3 ⟨1, 0⟩ (fun _ => false) 3 1
      (by decide) (by decide) (by decide)
      (fun k hk1 hk2 => by interval_cases k <;> decide)
      (by decide)).trans (by decide)

/-! ### Claim C3: the one-way filtering structure of BoxCollides -/

/-- orFold ORs the values of a function over a list. -/
def orFold (L : List α) (f : α → ℕ) : ℕ := L.foldl (fun acc p => acc ||| f p) 0

/-- ordContrib: what one ordinary sample adds to the aggregate — nothing
when the clip passes the cell's mask through or the cell is one-way,
otherwise the cell's mask. -/
def ordContrib (s : PlatformerScene) (clip : ClipFunc) (p : ℚ × ℚ) : ℕ :=
  let dat := gridData s p.1 p.2
  if clip (collideMask dat) || isOneWay dat then 0 else collideMask dat

/-- botContrib: what one bottom sample adds to the aggregate — nothing
when the clip passes the cell's mask through, otherwise the cell's mask
(one-way cells included). -/
def botContrib (s : PlatformerScene) (clip : ClipFunc) (p : ℚ × ℚ) : ℕ :=
  let dat := gridData s p.1 p.2
  if clip (collideMask dat) then 0 else collideMask dat

/-- botSamplePoints: the bottom corners and the bottom edge of the inset
hitbox — exactly the placements tested with the unfiltered sampler. -/
def botSamplePoints (hitbox : IRect) : List (ℚ × ℚ) :=
  let x1 := (hitbox.x : ℚ) + eps
  let x2 := ((hitbox.x + hitbox.w : ℤ) : ℚ) - eps
  let y2 := ((hitbox.y + hitbox.h : ℤ) : ℚ) - eps
  [(x2, y2), (x1, y2)] ++ hLinePoints x1 x2 y2

/-- ordSamplePoints: top corners, the vertical edge visits, the top edge
and the interior — the placements tested with the one-way-excluding
sampler. -/
def ordSamplePoints (hitbox : IRect) : List (ℚ × ℚ) :=
  let x1 := (hitbox.x : ℚ) + eps
  let y1 := (hitbox.y : ℚ) + eps
  let x2 := ((hitbox.x + hitbox.w : ℤ) : ℚ) - eps
  let y2 := ((hitbox.y + hitbox.h : ℤ) : ℚ) - eps
  [(x2, y1), (x1, y1)] ++ vLinePoints x2 y1 y2 ++ vLinePoints x1 y1 y2 ++
    hLinePoints x1 x2 y1 ++ interiorPts x1 y1 x2 y2

/-- One ordinary sampler call ORs its contribution onto the accumulator. -/
theorem collidesSample_eq (s : PlatformerScene) (clip : ClipFunc) (acc : ℕ) (p : ℚ × ℚ) :
    collidesSample s clip acc p = acc ||| ordContrib s clip p := by
  simp only [collidesSample, ordContrib]
  split <;> simp

/-- One bottom sampler call ORs its contribution onto the accumulator. -/
theorem collidesBotSample_eq (s : PlatformerScene) (clip : ClipFunc) (acc : ℕ) (p : ℚ × ℚ) :
    collidesBotSample s clip acc p = acc ||| botContrib s clip p := by
  simp only [collidesBotSample, botContrib]
  split <;> simp

/-- Folding an OR-accumulating function factors through `orFold`. -/
theorem foldl_or_shift (g : α → ℕ) (L : List α) :
    ∀ acc : ℕ, L.foldl (fun a p => a ||| g p) acc = acc ||| orFold L g := by
  induction L with
  | nil => intro acc; simp [orFold]
  | cons hd tl ih =>
    intro acc
    show tl.foldl (fun a p => a ||| g p) (acc ||| g hd) = acc ||| orFold (hd :: tl) g
    rw [ih]
    have h : orFold (hd :: tl) g = (0 ||| g hd) ||| orFold tl g := by
      show tl.foldl (fun a p => a ||| g p) (0 ||| g hd) = _
      rw [ih]
    rw [h, Nat.zero_or, ← Nat.lor_assoc]

/-- orFold distributes over list append. -/
theorem orFold_append (g : α → ℕ) (L1 L2 : List α) :
    orFold (L1 ++ L2) g = orFold L1 g ||| orFold L2 g := by
  simp only [orFold, List.foldl_append]
  rw [foldl_or_shift]
  rfl

instance : Std.Associative (α := ℕ) (· ||| ·) := ⟨Nat.lor_assoc⟩

instance : Std.Commutative (α := ℕ) (· ||| ·) := ⟨Nat.lor_comm⟩

/-- Folding a sampler over a point list factors through `orFold`. -/
theorem foldl_collidesSample (s : PlatformerScene) (clip : ClipFunc) (L : List (ℚ × ℚ))
    (acc : ℕ) : L.foldl (collidesSample s clip) acc = acc ||| orFold L (ordContrib s clip) := by
  have h : ∀ a p, collidesSample s clip a p = a ||| ordContrib s clip p :=
    collidesSample_eq s clip
  calc L.foldl (collidesSample s clip) acc
      = L.foldl (fun a p => a ||| ordContrib s clip p) acc := by
        congr 1
        funext a p
        exact h a p
    _ = acc ||| orFold L (ordContrib s clip) := foldl_or_shift _ L acc

/-- Folding the bottom sampler over a point list factors through `orFold`. -/
theorem foldl_collidesBotSample (s : PlatformerScene) (clip : ClipFunc) (L : List (ℚ × ℚ))
    (acc : ℕ) :
    L.foldl (collidesBotSample s clip) acc = acc ||| orFold L (botContrib s clip) := by
  have h : ∀ a p, collidesBotSample s clip a p = a ||| botContrib s clip p :=
    collidesBotSample_eq s clip
  calc L.foldl (collidesBotSample s clip) acc
      = L.foldl (fun a p => a ||| botContrib s clip p) acc := by
        congr 1
        funext a p
        exact h a p
    _ = acc ||| orFold L (botContrib s clip) := foldl_or_shift _ L acc

/-- Claim C3: BoxCollides is the OR of per-sample contributions, with the
bottom corners and bottom edge contributing through the unfiltered
(bottom) sampler and every other sample through the ordinary sampler; a
one-way cell contributes nothing through an ordinary sample, while a
bottom sample not passed through by the clip always contributes its cell's
mask (one-way included). -/
theorem c3_boxCollides_sampling (s : PlatformerScene) (hitbox : IRect) (clip : ClipFunc) :
    (boxCollides s hitbox clip =
      orFold (botSamplePoints hitbox) (botContrib s clip) |||
        orFold (ordSamplePoints hitbox) (ordContrib s clip)) ∧
    (∀ x y : ℚ, isOneWay (gridData s x y) = true → ordContrib s clip (x, y) = 0) ∧
    (∀ x y : ℚ, clip (collideMask (gridData s x y)) = false →
      botContrib s clip (x, y) = collideMask (gridData s x y)) := by
  refine ⟨?_, ?_, ?_⟩
  · simp only [boxCollides, botSamplePoints, ordSamplePoints,
      collidesSample_eq, collidesBotSample_eq, foldl_collidesSample,
      foldl_collidesBotSample, orFold_append]
    simp only [orFold, List.foldl_cons, List.foldl_nil]
    simp only [collidesSample_eq, collidesBotSample_eq, foldl_or_shift]
    simp only [Nat.zero_or]
    ac_rfl
  · intro x y h
    simp [ordContrib, h]
  · intro x y h
    simp [botContrib, h]

/-- Concrete scene for the C3 witness: a single one-way dirt cell. -/
def c3Scene : PlatformerScene :=
  { cellSize := 1, cellsWide := 1, intGridData := [intGridDirt ||| intGridOneWay] }

unseal Rat.add Rat.mul Rat.inv Rat.sub in
/-- Witness for C3 at the one-way cell: an ordinary sample contributes
nothing while a bottom sample contributes the full mask. -/
theorem c3_witness :
    ordContrib c3Scene (fun _ => false) (1 / 2, 1 / 2) = 0 ∧
    botContrib c3Scene (fun _ => false) (1 / 2, 1 / 2) =
      collideMask (gridData c3Scene (1 / 2) (1 / 2)) :=
  ⟨(c3_boxCollides_sampling c3Scene ⟨0, 0, 1, 1⟩ (fun _ => false)).2.1
      (1 / 2) (1 / 2) (by decide),
   (c3_boxCollides_sampling c3Scene ⟨0, 0, 1, 1⟩ (fun _ => false)).2.2
      (1 / 2) (1 / 2) rfl⟩

/-! ### Claim C5: ladder-climb entry -/

/-- PlayerInput flag: climb up. -/
def inputClimbedUp : ℕ := 4

/-- PlayerInput flag: climb down. -/
def inputClimbedDown : ℕ := 8

/-- PlayerStateLadderClimbing enumerant. -/
def playerStateLadderClimbing : ℕ := 6

/-- Player, restricted to the fields the ladder-entry helper reads or
writes; the sprite's bounds are modelled as stored width and height. -/
structure Player where
  posX : ℤ
  posY : ℤ
  velX : ℚ
  velY : ℚ
  state : ℕ
  spriteW : ℤ
  spriteH : ℤ
deriving DecidableEq

/-- Player.hitbox: position plus sprite bounds. -/
def Player.hitbox (p : Player) : IRect := ⟨p.posX, p.posY, p.spriteW, p.spriteH⟩

/-- cellAt (the scene's `at` method) returns the screen coordinates of the
cell containing the point together with the cell's collision mask. -/
def cellAt (s : PlatformerScene) (ptX ptY : ℚ) : (ℚ × ℚ) × ℕ :=
  let c := screenToCell s ptX ptY
  ((((c.1 * s.cellSize : ℤ) : ℚ), ((c.2 * s.cellSize : ℤ) : ℚ)),
    collideMask (gridData s ptX ptY))

/-- Player.cellUnderFoot: the cell at the bottom-center of the hitbox. -/
def Player.cellUnderFoot (s : PlatformerScene) (p : Player) : (ℚ × ℚ) × ℕ :=
  let hb := p.hitbox
  cellAt s ((hb.x : ℚ) + (hb.w : ℚ) / 2) (((hb.y + hb.h : ℤ) : ℚ))

/-- startLadderClimbing: refuse unless a ladder is underfoot, or when
climbing up exactly at a ladder-top or down exactly at a ladder-bottom;
on success snap the X position to the ladder cell's X, zero the velocity,
and return the ladder-climbing state.  The player's own state field is
never written here (the caller stores the returned state). -/
def startLadderClimbing (s : PlatformerScene) (p : Player) (input : ℕ) : Player × ℕ :=
  let r := Player.cellUnderFoot s p
  let coords := r.1
  let cell := r.2
  if cell &&& collideLadder = 0 then (p, p.state)
  else if 0 < input &&& inputClimbedUp ∧ cell &&& collideLadderTop = collideLadderTop then
    (p, p.state)
  else if 0 < input &&& inputClimbedDown ∧ cell &&& collideLadderBot = collideLadderBot then
    (p, p.state)
  else
    ({ p with posX := truncQ coords.1, velX := 0, velY := 0 }, playerStateLadderClimbing)

/-- Truncation of an integer-valued rational is that integer. -/
theorem truncQ_intCast (n : ℤ) : truncQ ((n : ℤ) : ℚ) = n := by
  have hf : ratFloor ((n : ℤ) : ℚ) = n := by
    rw [ratFloor_eq, Int.floor_intCast]
  have hc : ratCeil ((n : ℤ) : ℚ) = n := by
    rw [ratCeil_eq, Int.ceil_intCast]
  unfold truncQ
  split <;> simp [hf, hc]

/-- Claim C5: when no ladder is underfoot, or climb-up is pressed at a
ladder-top, or climb-down at a ladder-bottom, the player is returned
unchanged with the current state; otherwise the X position snaps to the
ladder cell's X coordinate, both velocity components become zero, and the
ladder-climbing state is returned. -/
theorem c5_startLadderClimbing (s : PlatformerScene) (p : Player) (input : ℕ) :
    (((Player.cellUnderFoot s p).2 &&& collideLadder = 0 ∨
      (0 < input &&& inputClimbedUp ∧
        (Player.cellUnderFoot s p).2 &&& collideLadderTop = collideLadderTop) ∨
      (0 < input &&& inputClimbedDown ∧
        (Player.cellUnderFoot s p).2 &&& collideLadderBot = collideLadderBot)) →
      startLadderClimbing s p input = (p, p.state)) ∧
    (¬ ((Player.cellUnderFoot s p).2 &&& collideLadder = 0 ∨
      (0 < input &&& inputClimbedUp ∧
        (Player.cellUnderFoot s p).2 &&& collideLadderTop = collideLadderTop) ∨
      (0 < input &&& inputClimbedDown ∧
        (Player.cellUnderFoot s p).2 &&& collideLadderBot = collideLadderBot)) →
      startLadderClimbing s p input =
        ({ p with
            posX := (screenToCell s ((p.posX : ℚ) + (p.spriteW : ℚ) / 2)
              (((p.posY + p.spriteH : ℤ) : ℚ))).1 * s.cellSize,
            velX := 0, velY := 0 }, playerStateLadderClimbing)) := by
  constructor
  · intro h
    rcases h with h | h | h
    · simp [startLadderClimbing, h]
    · simp only [startLadderClimbing]
      have hlad : ¬ (Player.cellUnderFoot s p).2 &&& collideLadder = 0 := by
        intro hc
        have h1 : ((Player.cellUnderFoot s p).2 &&& collideLadderTop).testBit 1 = true := by
          rw [h.2]; decide
        have h2 : ((Player.cellUnderFoot s p).2 &&& collideLadder).testBit 1 = false := by
          rw [hc]; decide
        rw [Nat.testBit_land] at h1 h2
        simp only [show collideLadderTop.testBit 1 = true from by decide,
          show collideLadder.testBit 1 = true from by decide, Bool.and_true] at h1 h2
        rw [h1] at h2
        exact absurd h2 (by decide)
      rw [if_neg hlad, if_pos h]
    · simp only [startLadderClimbing]
      by_cases h0 : (Player.cellUnderFoot s p).2 &&& collideLadder = 0
      · rw [if_pos h0]
      · rw [if_neg h0]
        by_cases h1 : 0 < input &&& inputClimbedUp ∧
            (Player.cellUnderFoot s p).2 &&& collideLadderTop = collideLadderTop
        · rw [if_pos h1]
        · rw [if_neg h1, if_pos h]
  · intro h
    push_neg at h
    obtain ⟨h0, h1, h2⟩ := h
    simp only [startLadderClimbing]
    rw [if_neg h0, if_neg ?_, if_neg ?_]
    · simp only [Player.cellUnderFoot, cellAt, Player.hitbox, truncQ_intCast]
    · intro hc
      exact absurd hc.2 (h2 hc.1)
    · intro hc
      exact absurd hc.2 (h1 hc.1)

/-- Concrete scene for the C5 witness: 2-by-2 grid of 2-pixel cells with
ladders along the bottom row. -/
def c5Scene : PlatformerScene :=
  { cellSize := 2, cellsWide := 2,
    intGridData := [intGridNothing, intGridNothing, intGridLadder, intGridLadder] }

/-- Concrete player for the C5 witness, standing off-center over a ladder. -/
def c5Player : Player :=
  { posX := 1, posY := 0, velX := 3, velY := 1, state := 0, spriteW := 2, spriteH := 2 }

unseal Rat.add Rat.mul Rat.inv Rat.sub in
/-- Witness for C5: pressing climb-up over a plain ladder snaps X from 1
to the cell's X (2), zeroes the velocity, and starts climbing. -/
theorem c5_witness :
    startLadderClimbing c5Scene c5Player inputClimbedUp =
      ({ c5Player with posX := 2, velX := 0, velY := 0 }, playerStateLadderClimbing) :=
  ((c5_startLadderClimbing c5Scene c5Player inputClimbedUp).2 (by decide)).trans (by decide)

/-! ### Claim C4: the zero-step standing query -/

/-- cellRange lists the integers from `lo` to `hi` inclusive. -/
def cellRange (lo hi : ℤ) : List ℤ :=
  (List.range (hi + 1 - lo).toNat).map fun (k : ℕ) => lo + (k : ℤ)

/-- Modelled from the claim's wording: the cells overlapping the hitbox,
using the code's cell convention (cell index = coordinate divided by the
cell size) — all columns from `x / cs` to `(x + w - 1) / cs` paired with
all rows from `y / cs` to `(y + h - 1) / cs`. -/
def overlapCells (s : PlatformerScene) (hitbox : IRect) : List (ℤ × ℤ) :=
  (cellRange (hitbox.x / s.cellSize) ((hitbox.x + hitbox.w - 1) / s.cellSize)).flatMap fun cx =>
    (cellRange (hitbox.y / s.cellSize) ((hitbox.y + hitbox.h - 1) / s.cellSize)).map fun cy =>
      (cx, cy)

/-- Modelled from the spec: the union of the collision-mask bits of every
cell overlapping the hitbox. -/
def specOverlapMask (s : PlatformerScene) (hitbox : IRect) : ℕ :=
  orFold (overlapCells s hitbox) fun c => collideMask (gridDataI s c.1 c.2)

/-- Membership in cellRange is the interval condition. -/
theorem mem_cellRange {lo hi c : ℤ} : c ∈ cellRange lo hi ↔ lo ≤ c ∧ c ≤ hi := by
  simp only [cellRange, List.mem_map, List.mem_range]
  constructor
  · rintro ⟨k, hk, rfl⟩
    omega
  · rintro ⟨h1, h2⟩
    refine ⟨(c - lo).toNat, by omega, by omega⟩

/-- Every half-step point lies strictly between the loop bounds. -/
theorem mem_halfPts_bounds {a b q : ℚ} (h : q ∈ halfPts a b) : a < q ∧ q < b := by
  simp only [halfPts, List.mem_filterMap, List.mem_range] at h
  obtain ⟨k, _, hk⟩ := h
  split at hk
  · cases hk
    constructor
    · have : (0 : ℚ) < ((k : ℚ) + 1) / 2 := by positivity
      linarith
    · assumption
  · cases hk

/-- A half-step point below the bound is visited. -/
theorem halfPts_mem_of {a b : ℚ} (j : ℤ) (hj : 1 ≤ j) (hlt : a + (j : ℚ) / 2 < b) :
    a + (j : ℚ) / 2 ∈ halfPts a b := by
  simp only [halfPts, List.mem_filterMap, List.mem_range]
  refine ⟨(j - 1).toNat, ?_, ?_⟩
  · have hceil : j < ratCeil (2 * (b - a)) := by
      rw [ratCeil_eq, Int.lt_ceil]
      linarith
    omega
  · have hz : ((j - 1).toNat : ℤ) = j - 1 := by omega
    have hcast : (((j - 1).toNat : ℚ) + 1) = (j : ℚ) := by
      have h2 : (((j - 1).toNat : ℤ) : ℚ) = ((j - 1 : ℤ) : ℚ) := by rw [hz]
      push_cast at h2
      linarith
    rw [hcast, if_pos hlt]

/-- truncQ is the floor on nonnegative rationals. -/
theorem truncQ_eq_floor (q : ℚ) (h : 0 ≤ q) : truncQ q = ⌊q⌋ := by
  rw [truncQ, if_pos h, ratFloor_eq]

/-- Direction one of the C4 coverage argument, per axis: a sample
coordinate inside the inset interval falls in a cell between `A / cs` and
`(A + L - 1) / cs`. -/
theorem sample_cell_bounds (A L cs : ℤ) (q : ℚ) (hA : 0 ≤ A) (hcs : 1 ≤ cs)
    (h1 : (A : ℚ) + eps ≤ q) (h2 : q ≤ ((A + L : ℤ) : ℚ) - eps) :
    A / cs ≤ truncQ (q / (cs : ℚ)) ∧ truncQ (q / (cs : ℚ)) ≤ (A + L - 1) / cs := by
  have hcsQ : (0 : ℚ) < (cs : ℚ) := by exact_mod_cast hcs
  have hq0 : (0 : ℚ) ≤ q := by
    have : (0 : ℚ) ≤ (A : ℚ) := by exact_mod_cast hA
    have heps : (0 : ℚ) < eps := by norm_num [eps]
    linarith
  have hdiv0 : (0 : ℚ) ≤ q / (cs : ℚ) := div_nonneg hq0 (le_of_lt hcsQ)
  rw [truncQ_eq_floor _ hdiv0]
  constructor
  · rw [Int.le_floor]
    rw [le_div_iff₀ hcsQ]
    have hmul : (A / cs) * cs ≤ A := Int.ediv_mul_le A (by omega)
    have : ((A / cs * cs : ℤ) : ℚ) ≤ (A : ℚ) := by exact_mod_cast hmul
    push_cast at this ⊢
    have heps : (0 : ℚ) < eps := by norm_num [eps]
    linarith
  · rw [Int.le_ediv_iff_mul_le (by omega : (0 : ℤ) < cs)]
    have hfl : ((⌊q / (cs : ℚ)⌋ : ℤ) : ℚ) ≤ q / (cs : ℚ) := Int.floor_le _
    have hmulQ : ((⌊q / (cs : ℚ)⌋ * cs : ℤ) : ℚ) ≤ q := by
      push_cast
      calc ((⌊q / (cs : ℚ)⌋ : ℤ) : ℚ) * (cs : ℚ)
          ≤ (q / (cs : ℚ)) * (cs : ℚ) := by
            exact mul_le_mul_of_nonneg_right hfl (le_of_lt hcsQ)
        _ = q := div_mul_cancel₀ q (ne_of_gt hcsQ)
    have hlt : ((⌊q / (cs : ℚ)⌋ * cs : ℤ) : ℚ) < ((A + L : ℤ) : ℚ) := by
      have heps : (0 : ℚ) < eps := by norm_num [eps]
      calc ((⌊q / (cs : ℚ)⌋ * cs : ℤ) : ℚ) ≤ q := hmulQ
        _ ≤ ((A + L : ℤ) : ℚ) - eps := h2
        _ < ((A + L : ℤ) : ℚ) := by linarith
    have : ⌊q / (cs : ℚ)⌋ * cs < A + L := by exact_mod_cast hlt
    omega

/-- Direction two of the C4 coverage argument, per axis: every cell index
between `A / cs` and `(A + L - 1) / cs` contains an interior half-step
sample coordinate. -/
theorem mid_pick (A L cs c : ℤ) (hA : 0 ≤ A) (hcs : 1 ≤ cs) (hL : 1 ≤ L)
    (hlo : A / cs ≤ c) (hhi : c ≤ (A + L - 1) / cs) :
    ∃ q ∈ halfPts ((A : ℚ) + eps) (((A + L : ℤ) : ℚ) - eps),
      truncQ (q / (cs : ℚ)) = c := by
  have hcsQ : (0 : ℚ) < (cs : ℚ) := by exact_mod_cast (by omega : (0 : ℤ) < cs)
  have hAQ : (0 : ℚ) ≤ (A : ℚ) := by exact_mod_cast hA
  have hLQ : (1 : ℚ) ≤ (L : ℚ) := by exact_mod_cast hL
  have hcsQ1 : (1 : ℚ) ≤ (cs : ℚ) := by exact_mod_cast hcs
  have hepsQ : (0 : ℚ) < eps ∧ eps < 1 / 4 := by norm_num [eps]
  have hF1 : cs * c ≤ A + L - 1 := by
    have := (Int.le_ediv_iff_mul_le (by omega : (0 : ℤ) < cs)).mp hhi
    linarith
  have hF1Q : (cs : ℚ) * (c : ℚ) ≤ (A : ℚ) + (L : ℚ) - 1 := by exact_mod_cast hF1
  have hF2 : A + 1 ≤ (c + 1) * cs := by
    have h1 : A < (A / cs + 1) * cs := Int.lt_ediv_add_one_mul_self A (by omega)
    have h2 : (A / cs + 1) * cs ≤ (c + 1) * cs := by
      apply mul_le_mul_of_nonneg_right _ (by omega : (0 : ℤ) ≤ cs)
      omega
    omega
  have hF2Q : (A : ℚ) + 1 ≤ ((c : ℚ) + 1) * (cs : ℚ) := by exact_mod_cast hF2
  have hc0 : 0 ≤ c := le_trans (Int.ediv_nonneg hA (by omega)) hlo
  set a1 : ℚ := (A : ℚ) + eps with ha1
  set r : ℚ := 2 * (((cs * c : ℤ) : ℚ) - a1) with hr
  set jz : ℤ := max 1 (ratCeil r) with hjz
  have hj1 : 1 ≤ jz := le_max_left _ _
  have hcscQ : ((cs * c : ℤ) : ℚ) = (cs : ℚ) * (c : ℚ) := by push_cast; ring
  -- the chosen sample coordinate
  have hreq : r = 2 * ((cs : ℚ) * (c : ℚ) - a1) := by rw [hr, hcscQ]
  have hlow : (cs : ℚ) * (c : ℚ) ≤ a1 + (jz : ℚ) / 2 := by
    by_cases hcase : ratCeil r ≤ 0
    · have hmax : jz = 1 := by omega
      have hle : r ≤ ((ratCeil r : ℤ) : ℚ) := by
        rw [ratCeil_eq]
        exact Int.le_ceil r
      have hcast : ((ratCeil r : ℤ) : ℚ) ≤ 0 := by exact_mod_cast hcase
      rw [hmax]
      push_cast
      linarith
    · have hmax : jz = ratCeil r := by omega
      have hle : r ≤ ((ratCeil r : ℤ) : ℚ) := by
        rw [ratCeil_eq]
        exact Int.le_ceil r
      rw [hmax]
      linarith
  have hhigh : a1 + (jz : ℚ) / 2 < (cs : ℚ) * (c : ℚ) + 1 / 2 ∨
      a1 + (jz : ℚ) / 2 = a1 + 1 / 2 := by
    by_cases hcase : ratCeil r ≤ 0
    · have hmax : jz = 1 := by omega
      right
      rw [hmax]
      norm_num
    · have hmax : jz = ratCeil r := by omega
      left
      have hlt : ((ratCeil r : ℤ) : ℚ) < r + 1 := by
        rw [ratCeil_eq]
        exact Int.ceil_lt_add_one r
      rw [hmax]
      linarith
  have hq_lt_top : a1 + (jz : ℚ) / 2 < ((A + L : ℤ) : ℚ) - eps := by
    have htop : ((A + L : ℤ) : ℚ) = (A : ℚ) + (L : ℚ) := by push_cast; ring
    rw [htop]
    rcases hhigh with h | h
    · rw [ha1] at h ⊢
      linarith
    · rw [h, ha1]
      linarith
  have hq_lt_cell : a1 + (jz : ℚ) / 2 < (cs : ℚ) * ((c : ℚ) + 1) := by
    rcases hhigh with h | h
    · nlinarith
    · rw [h, ha1]
      nlinarith
  refine ⟨a1 + (jz : ℚ) / 2, halfPts_mem_of jz hj1 hq_lt_top, ?_⟩
  have hq0 : (0 : ℚ) ≤ a1 + (jz : ℚ) / 2 := by
    have : (0 : ℚ) ≤ (jz : ℚ) := by exact_mod_cast (by omega : (0 : ℤ) ≤ jz)
    rw [ha1]
    linarith [hepsQ.1]
  have hdiv0 : (0 : ℚ) ≤ (a1 + (jz : ℚ) / 2) / (cs : ℚ) := div_nonneg hq0 (le_of_lt hcsQ)
  rw [truncQ_eq_floor _ hdiv0]
  rw [Int.floor_eq_iff]
  constructor
  · rw [le_div_iff₀ hcsQ]
    linarith
  · rw [div_lt_iff₀ hcsQ]
    nlinarith

/-- orFold over a cons. -/
theorem orFold_cons (f : α → ℕ) (hd : α) (tl : List α) :
    orFold (hd :: tl) f = f hd ||| orFold tl f := by
  show tl.foldl (fun acc p => acc ||| f p) (0 ||| f hd) = _
  rw [foldl_or_shift, Nat.zero_or]

/-- A member's value is absorbed by the fold. -/
theorem or_mem_orFold {a : α} {L : List α} (f : α → ℕ) (h : a ∈ L) :
    f a ||| orFold L f = orFold L f := by
  induction L with
  | nil => cases h
  | cons hd tl ih =>
    rw [orFold_cons]
    rcases List.mem_cons.mp h with rfl | h2
    · rw [← Nat.lor_assoc, Nat.or_self]
    · rw [← Nat.lor_assoc, Nat.lor_comm (f a) (f hd), Nat.lor_assoc, ih h2]

/-- A fold all of whose values are absorbed by `m` is absorbed by `m`. -/
theorem orFold_absorbed {L : List α} {f : α → ℕ} {m : ℕ}
    (h : ∀ a ∈ L, f a ||| m = m) : orFold L f ||| m = m := by
  induction L with
  | nil => exact Nat.zero_or m
  | cons hd tl ih =>
    rw [orFold_cons, Nat.lor_assoc,
      ih fun a ha => h a (List.mem_cons_of_mem hd ha),
      h hd (List.mem_cons_self hd tl)]

/-- Two folds agree when each side's values all occur on the other side. -/
theorem orFold_eq_orFold {L : List α} {M : List β} {f : α → ℕ} {g : β → ℕ}
    (h1 : ∀ a ∈ L, ∃ b ∈ M, f a = g b) (h2 : ∀ b ∈ M, ∃ a ∈ L, g b = f a) :
    orFold L f = orFold M g := by
  have hLM : orFold L f ||| orFold M g = orFold M g := by
    apply orFold_absorbed
    intro a ha
    obtain ⟨b, hb, hfg⟩ := h1 a ha
    rw [hfg]
    exact or_mem_orFold g hb
  have hML : orFold M g ||| orFold L f = orFold L f := by
    apply orFold_absorbed
    intro b hb
    obtain ⟨a, ha, hgf⟩ := h2 b hb
    rw [hgf]
    exact or_mem_orFold f ha
  calc orFold L f = orFold M g ||| orFold L f := hML.symm
    _ = orFold L f ||| orFold M g := Nat.lor_comm _ _
    _ = orFold M g := hLM

/-- Bounds of the horizontal line visits. -/
theorem mem_hLinePoints {x1 x2 y : ℚ} {p : ℚ × ℚ} (hx : x1 ≤ x2)
    (h : p ∈ hLinePoints x1 x2 y) : (x1 ≤ p.1 ∧ p.1 ≤ x2) ∧ p.2 = y := by
  simp only [hLinePoints, List.mem_cons, List.mem_append, List.mem_map,
    List.not_mem_nil, or_false] at h
  rcases h with rfl | ⟨q, hq, rfl⟩ | rfl
  · exact ⟨⟨le_refl _, hx⟩, rfl⟩
  · obtain ⟨h1, h2⟩ := mem_halfPts_bounds hq
    exact ⟨⟨le_of_lt h1, le_of_lt h2⟩, rfl⟩
  · exact ⟨⟨hx, le_refl _⟩, rfl⟩

/-- Bounds of the vertical line visits (the swap included). -/
theorem mem_vLinePoints {x y1 y2 : ℚ} {p : ℚ × ℚ} (hy : y1 ≤ y2)
    (h : p ∈ vLinePoints x y1 y2) : p.1 = x ∧ y1 ≤ p.2 ∧ p.2 ≤ y2 := by
  by_cases hswap : y2 > y1
  · simp only [vLinePoints] at h
    rw [if_pos hswap] at h
    simp only [List.mem_cons, List.mem_append, List.mem_map,
      List.not_mem_nil, or_false] at h
    rcases h with rfl | ⟨q, hq, rfl⟩ | rfl
    · exact ⟨rfl, hy, le_refl _⟩
    · obtain ⟨h1, h2⟩ := mem_halfPts_bounds hq
      exact absurd (lt_trans (lt_trans h1 h2) hswap) (lt_irrefl y2)
    · exact ⟨rfl, le_refl _, hy⟩
  · simp only [vLinePoints] at h
    rw [if_neg hswap] at h
    simp only [List.mem_cons, List.mem_append, List.mem_map,
      List.not_mem_nil, or_false] at h
    rcases h with rfl | ⟨q, hq, rfl⟩ | rfl
    · exact ⟨rfl, le_refl _, hy⟩
    · obtain ⟨h1, h2⟩ := mem_halfPts_bounds hq
      exact ⟨rfl, le_of_lt h1, le_of_lt h2⟩
    · exact ⟨rfl, hy, le_refl _⟩

/-- Bounds of the interior visits. -/
theorem mem_interiorPts {x1 y1 x2 y2 : ℚ} {p : ℚ × ℚ}
    (h : p ∈ interiorPts x1 y1 x2 y2) :
    (x1 < p.1 ∧ p.1 < x2) ∧ (y1 < p.2 ∧ p.2 < y2) := by
  simp only [interiorPts, List.mem_flatMap, List.mem_map] at h
  obtain ⟨qx, hqx, qy, hqy, rfl⟩ := h
  exact ⟨mem_halfPts_bounds hqx, mem_halfPts_bounds hqy⟩

/-- Every visit of the whole-box traversal lies inside the box. -/
theorem mem_gridPoints_bounds {x1 y1 x2 y2 : ℚ} {p : ℚ × ℚ}
    (hx : x1 ≤ x2) (hy : y1 ≤ y2) (h : p ∈ gridPoints x1 y1 x2 y2) :
    (x1 ≤ p.1 ∧ p.1 ≤ x2) ∧ (y1 ≤ p.2 ∧ p.2 ≤ y2) := by
  simp only [gridPoints, List.mem_append, List.mem_cons,
    List.not_mem_nil, or_false] at h
  rcases h with (((((rfl | rfl | rfl | rfl) | hv2) | hv1) | hh1) | hh2) | hint
  · exact ⟨⟨hx, le_refl _⟩, ⟨hy, le_refl _⟩⟩
  · exact ⟨⟨le_refl _, hx⟩, ⟨hy, le_refl _⟩⟩
  · exact ⟨⟨hx, le_refl _⟩, ⟨le_refl _, hy⟩⟩
  · exact ⟨⟨le_refl _, hx⟩, ⟨le_refl _, hy⟩⟩
  · obtain ⟨h1, h2, h3⟩ := mem_vLinePoints hy hv2
    rw [h1]
    exact ⟨⟨hx, le_refl _⟩, h2, h3⟩
  · obtain ⟨h1, h2, h3⟩ := mem_vLinePoints hy hv1
    rw [h1]
    exact ⟨⟨le_refl _, hx⟩, h2, h3⟩
  · obtain ⟨h1, h2⟩ := mem_hLinePoints hx hh1
    rw [h2]
    exact ⟨h1, ⟨le_refl _, hy⟩⟩
  · obtain ⟨h1, h2⟩ := mem_hLinePoints hx hh2
    rw [h2]
    exact ⟨h1, ⟨hy, le_refl _⟩⟩
  · obtain ⟨h1, h2⟩ := mem_interiorPts hint
    exact ⟨⟨le_of_lt h1.1, le_of_lt h1.2⟩, ⟨le_of_lt h2.1, le_of_lt h2.2⟩⟩

/-- Interior product membership. -/
theorem interiorPts_mem {x1 y1 x2 y2 qx qy : ℚ}
    (hx : qx ∈ halfPts x1 x2) (hy : qy ∈ halfPts y1 y2) :
    (qx, qy) ∈ interiorPts x1 y1 x2 y2 := by
  simp only [interiorPts, List.mem_flatMap, List.mem_map]
  exact ⟨qx, hx, qy, hy, rfl⟩

/-- Interior points are visited by the whole-box traversal. -/
theorem interiorPts_subset_gridPoints {x1 y1 x2 y2 : ℚ} {p : ℚ × ℚ}
    (h : p ∈ interiorPts x1 y1 x2 y2) : p ∈ gridPoints x1 y1 x2 y2 := by
  simp only [gridPoints, List.mem_append]
  exact Or.inr h

/-- Claim C4: a request that rounds to zero steps performs no movement —
`move` returns displacement 0 without stepping the hitbox — and returns
the OR of the collision masks of every cell overlapping the hitbox,
computed by `AllOverlapping` without consulting the clip predicate.
Stated for hitboxes at nonnegative coordinates with positive size and a
positive cell size, where the code's truncating cell convention agrees
with the geometric notion of the overlapped cell rectangle. -/
theorem c4_move_zero_standing (s : PlatformerScene) (hitbox : IRect) (amount : ℚ)
    (axis : IVec2) (clip : ClipFunc)
    (hmv : roundQ amount = 0)
    (hx : 0 ≤ hitbox.x) (hy : 0 ≤ hitbox.y) (hw : 1 ≤ hitbox.w) (hh : 1 ≤ hitbox.h)
    (hcs : 1 ≤ s.cellSize) :
    move s hitbox amount axis clip = (0, allOverlapping s hitbox) ∧
    allOverlapping s hitbox = specOverlapMask s hitbox := by
  constructor
  · simp only [move]
    rw [if_pos hmv]
  · have hWQ : (1 : ℚ) ≤ (hitbox.w : ℚ) := by exact_mod_cast hw
    have hHQ : (1 : ℚ) ≤ (hitbox.h : ℚ) := by exact_mod_cast hh
    have hxx : (hitbox.x : ℚ) + eps ≤ ((hitbox.x + hitbox.w : ℤ) : ℚ) - eps := by
      push_cast
      norm_num [eps]
      linarith
    have hyy : (hitbox.y : ℚ) + eps ≤ ((hitbox.y + hitbox.h : ℤ) : ℚ) - eps := by
      push_cast
      norm_num [eps]
      linarith
    show orFold
        (gridPoints ((hitbox.x : ℚ) + eps) ((hitbox.y : ℚ) + eps)
          (((hitbox.x + hitbox.w : ℤ) : ℚ) - eps) (((hitbox.y + hitbox.h : ℤ) : ℚ) - eps))
        (fun p => collideMask (gridData s p.1 p.2)) =
      orFold (overlapCells s hitbox) (fun c => collideMask (gridDataI s c.1 c.2))
    apply orFold_eq_orFold
    · intro p hp
      obtain ⟨⟨hx1, hx2⟩, ⟨hy1, hy2⟩⟩ := mem_gridPoints_bounds hxx hyy hp
      have hbx := sample_cell_bounds hitbox.x hitbox.w s.cellSize p.1 hx hcs hx1 hx2
      have hby := sample_cell_bounds hitbox.y hitbox.h s.cellSize p.2 hy hcs hy1 hy2
      refine ⟨(truncQ (p.1 / (s.cellSize : ℚ)), truncQ (p.2 / (s.cellSize : ℚ))), ?_, rfl⟩
      simp only [overlapCells, List.mem_flatMap, List.mem_map]
      exact ⟨_, mem_cellRange.mpr ⟨hbx.1, hbx.2⟩, _, mem_cellRange.mpr ⟨hby.1, hby.2⟩, rfl⟩
    · intro c hc
      simp only [overlapCells, List.mem_flatMap, List.mem_map] at hc
      obtain ⟨cx, hcx, cy, hcy, rfl⟩ := hc
      rw [mem_cellRange] at hcx hcy
      obtain ⟨qx, hqx, hcellx⟩ :=
        mid_pick hitbox.x hitbox.w s.cellSize cx hx hcs hw hcx.1 hcx.2
      obtain ⟨qy, hqy, hcelly⟩ :=
        mid_pick hitbox.y hitbox.h s.cellSize cy hy hcs hh hcy.1 hcy.2
      refine ⟨(qx, qy), interiorPts_subset_gridPoints (interiorPts_mem hqx hqy), ?_⟩
      have hgd : gridData s qx qy = gridDataI s cx cy := by
        show gridDataI s (truncQ (qx / (s.cellSize : ℚ))) (truncQ (qy / (s.cellSize : ℚ))) = _
        rw [hcellx, hcelly]
      show collideMask (gridDataI s cx cy) = collideMask (gridData s qx qy)
      rw [hgd]

/-- Concrete scene for the C4 witness: a 2-by-2 grid of 2-pixel cells
holding dirt, ladder, stone and nothing. -/
def c4Scene : PlatformerScene :=
  { cellSize := 2, cellsWide := 2,
    intGridData := [intGridDirt, intGridLadder, intGridStone, intGridNothing] }

/-- Concrete hitbox for the C4 witness, straddling all four cells. -/
def c4Hitbox : IRect := ⟨1, 1, 2, 2⟩

unseal Rat.add Rat.mul Rat.inv Rat.sub in
/-- Witness for C4: a request of 0.2 rounds to zero; move stands still and
reports the union of the dirt, ladder and stone masks of the four
overlapped cells, for any clip predicate. -/
theorem c4_witness :
    move c4Scene c4Hitbox (1 / 5) ⟨0, 1⟩ (fun _ => true) =
      (0, collideDirt ||| collideLadder ||| collideStone) :=
  ((c4_move_zero_standing c4Scene c4Hitbox (1 / 5) ⟨0, 1⟩ (fun _ => true)
      (by decide) (by decide) (by decide) (by decide) (by decide) (by decide)).1).trans
    (by decide)

end DayThree
